import Mathlib

/-!
Shallow embedding of the geodetic grid computation engine of the GOES-DR
repository (`src/goesdr`): the geostationary inverse-projection core
transform (`compute_latlon_grid` / `_transform_grid`), the direct and the
symmetry-accelerated grid builders (`calculate_latlon_grid_opti`,
`calculate_latlon_grid_fast`), pixel-edge interpolation
(`calculate_pixel_edges`), validity masking (`make_common_mask`,
`make_consistent`), the precomputed-grid loader (`GOESGeodeticGrid.from_file`),
the library-backed backend adapters and the configuration parsing of the
grid entry point (`GOESGeodeticGrid._parse_algorithm` / `_parse_step`).

Modelling conventions:
* 64-bit float arithmetic is modelled over `ℝ`; the IEEE NaN produced by
  `numpy.sqrt` of a negative number is modelled by `Option ℝ` (`none` = NaN)
  and propagates through `Option.map`.
* Elementwise numpy array operations are modelled pointwise; 2-D arrays are
  index functions `ℕ → ℕ → Option ℝ` and numpy basic slicing becomes index
  arithmetic on those functions.
* Python exceptions raised by the configuration layer are modelled with
  `Except`; the information the source embeds in the exception message
  (offending token, accepted set, bad step value) is carried structurally.
-/

namespace GoesDR

/-! ## Configuration parsing (`geodetic.py`) -/

/-- A word character of the `\w` class used by the algorithm-string pattern
`^(\w+)(?:\[(\w+)\])?$` of `GOESGeodeticGrid._parse_algorithm`. -/
def isWordChar (c : Char) : Bool := c.isAlphanum || c = '_'

/-- Anchored match of the pattern `^(\w+)(?:\[(\w+)\])?$`: a non-empty
word-character name, optionally followed by a non-empty bracketed
word-character option, with nothing after it.  Returns the two captured
groups on success. -/
def matchAlgoSpec (s : List Char) : Option (String × Option String) :=
  let name := s.takeWhile isWordChar
  let rest := s.dropWhile isWordChar
  if name.isEmpty then none
  else
    match rest with
    | [] => some (String.mk name, none)
    | '[' :: r =>
      let opt := r.takeWhile isWordChar
      let rest2 := r.dropWhile isWordChar
      if opt.isEmpty then none
      else if rest2 = [']'] then some (String.mk name, some (String.mk opt))
      else none
    | _ => none

/-- The configuration errors raised by the grid entry point (`ValueError`s in
the source).  Each constructor carries the data the corresponding source
message interpolates: the offending token and, where the message lists it,
the accepted set, or the bad step value. -/
inductive ConfigError
  | badPattern (algorithm : String)
  | badAlgorithmName (offending : String) (accepted : List String)
  | badOption (offending : String) (accepted : List String)
  | badStep (got : Int × Int)
deriving DecidableEq

/-- Accepted algorithm name tokens of `_parse_algorithm`. -/
def acceptedAlgorithms : List String := ["cartopy", "goesdr", "pyproj"]

/-- Accepted option tokens of `_parse_algorithm`. -/
def acceptedOptions : List String := ["center", "corner"]

/-- `GOESGeodeticGrid._parse_algorithm`: parse `name` or `name[option]`,
check the name against the accepted algorithm set and the option against
the accepted option set, and return the name with the corner flag. -/
def parse_algorithm (algorithm : String) : Except ConfigError (String × Bool) :=
  match matchAlgoSpec algorithm.toList with
  | none => .error (.badPattern algorithm)
  | some (name, opt) =>
    if name ∈ acceptedAlgorithms then
      match opt with
      | none => .ok (name, false)
      | some o =>
        if o ∈ acceptedOptions then .ok (name, o == "corner")
        else .error (.badOption o acceptedOptions)
    else .error (.badAlgorithmName name acceptedAlgorithms)

/-- `GOESGeodeticGrid._parse_step`: normalize an `int` step to a pair and
reject any non-positive component. -/
def parse_step (step : Int ⊕ Int × Int) : Except ConfigError (Int × Int) :=
  let s := match step with
    | .inl k => (k, k)
    | .inr p => p
  if s.1 ≤ 0 ∨ s.2 ≤ 0 then .error (.badStep s) else .ok s

/-- The control flow of `GOESGeodeticGrid.calculate`: parse the algorithm
string, then the step, and only then invoke the grid computation
(`_initialize_calculated`, abstracted as `grid`). -/
def calculateEntry {G : Type} (algorithm : String) (step : Int ⊕ Int × Int)
    (grid : String → Bool → Int × Int → G) : Except ConfigError G := do
  let nc ← parse_algorithm algorithm
  let s ← parse_step step
  pure (grid nc.1 nc.2 s)

/-! ## The core transform (`grid_helper.compute_latlon_grid`, pointwise) -/

noncomputable section
open Real

/-- Degrees from radians (`numpy.rad2deg`). -/
def rad2deg (v : ℝ) : ℝ := v * (180 / Real.pi)

/-- `numpy.sqrt`: NaN (`none`) on a negative input, the real square root
otherwise. -/
def npSqrt (v : ℝ) : Option ℝ := if v < 0 then none else some (Real.sqrt v)

/-- `a_var` of `compute_latlon_grid`, pointwise in the sines/cosines. -/
def aVar (r_eq r_pol sx cx sy cy : ℝ) : ℝ :=
  sx ^ 2 + cx ^ 2 * (cy ^ 2 + r_eq * r_eq / (r_pol * r_pol) * sy ^ 2)

/-- `b_var` of `compute_latlon_grid`. -/
def bVar (r_orb cx cy : ℝ) : ℝ := -2 * r_orb * cx * cy

/-- `c_var` of `compute_latlon_grid`. -/
def cVar (r_orb r_eq : ℝ) : ℝ := r_orb ^ 2 - r_eq ^ 2

/-- `r_s` of `compute_latlon_grid`: NaN exactly when the discriminant
`b_var² - 4·a_var·c_var` is negative. -/
def rS (r_orb r_eq r_pol sx cx sy cy : ℝ) : Option ℝ :=
  (npSqrt (bVar r_orb cx cy ^ 2 - 4 * aVar r_eq r_pol sx cx sy cy * cVar r_orb r_eq)).map
    fun sq => (-1 * bVar r_orb cx cy - sq) / (2 * aVar r_eq r_pol sx cx sy cy)

/-- The `abi_lat` expression of `compute_latlon_grid` as a function of `r_s`,
with `s_x = r_s·cos_x·cos_y`, `s_y = -r_s·sin_x`, `s_z = r_s·cos_x·sin_y`
inlined. -/
def latOfRs (r_orb r_eq r_pol sx cx sy cy rs : ℝ) : ℝ :=
  rad2deg (arctan (r_eq * r_eq / (r_pol * r_pol) *
    ((rs * cx * sy) /
      Real.sqrt ((r_orb - rs * cx * cy) * (r_orb - rs * cx * cy) +
        (-rs * sx) * (-rs * sx)))))

/-- The `abi_lon` expression of `compute_latlon_grid` as a function of
`r_s`. -/
def lonOfRs (r_orb sx cx cy rs : ℝ) : ℝ :=
  rad2deg (arctan ((-rs * sx) / (rs * cx * cy - r_orb)))

/-- `make_common_mask`, pointwise: a cell is kept only when both the
latitude and the longitude values are non-NaN; otherwise both become NaN. -/
def makeCommonMaskCell (la lo : Option ℝ) : Option ℝ × Option ℝ :=
  match la, lo with
  | some a, some o => (some a, some o)
  | _, _ => (none, none)

/-- `compute_latlon_grid` (identically `_transform_grid` of `grid_goesdr.py`)
on one cell, given the sines and cosines of its scan angles.  Returns the
`(latitude, longitude)` pair after `make_common_mask`. -/
def computeLatLonCell (r_orb r_eq r_pol sx cx sy cy : ℝ) : Option ℝ × Option ℝ :=
  makeCommonMaskCell
    ((rS r_orb r_eq r_pol sx cx sy cy).map (latOfRs r_orb r_eq r_pol sx cx sy cy))
    ((rS r_orb r_eq r_pol sx cx sy cy).map (lonOfRs r_orb sx cx cy))

/-- The latitude cell of the core transform at scan angles `(x, y)` in
radians (degrees out, before any longitude-origin shift), with the
`sin`/`cos` evaluation done by the grid builders inlined. -/
def latCell (r_orb r_eq r_pol x y : ℝ) : Option ℝ :=
  (computeLatLonCell r_orb r_eq r_pol (sin x) (cos x) (sin y) (cos y)).1

/-- The longitude cell of the core transform at scan angles `(x, y)`,
before the `longitude_of_projection_origin` shift. -/
def lonCell (r_orb r_eq r_pol x y : ℝ) : Option ℝ :=
  (computeLatLonCell r_orb r_eq r_pol (sin x) (cos x) (sin y) (cos y)).2

/-- The discriminant `b_var² - 4·a_var·c_var` at scan angles `(x, y)`. -/
def discCell (r_orb r_eq r_pol x y : ℝ) : ℝ :=
  bVar r_orb (cos x) (cos y) ^ 2 -
    4 * aVar r_eq r_pol (sin x) (cos x) (sin y) (cos y) * cVar r_orb r_eq

lemma computeLatLonCell_eq (r_orb r_eq r_pol sx cx sy cy : ℝ) :
    computeLatLonCell r_orb r_eq r_pol sx cx sy cy =
      ((rS r_orb r_eq r_pol sx cx sy cy).map (latOfRs r_orb r_eq r_pol sx cx sy cy),
       (rS r_orb r_eq r_pol sx cx sy cy).map (lonOfRs r_orb sx cx cy)) := by
  cases h : rS r_orb r_eq r_pol sx cx sy cy <;>
    simp [computeLatLonCell, makeCommonMaskCell, h]

lemma rS_neg_sx (r_orb r_eq r_pol sx cx sy cy : ℝ) :
    rS r_orb r_eq r_pol (-sx) cx sy cy = rS r_orb r_eq r_pol sx cx sy cy := by
  have h : aVar r_eq r_pol (-sx) cx sy cy = aVar r_eq r_pol sx cx sy cy := by
    unfold aVar; ring
  simp only [rS, h]

lemma rS_neg_sy (r_orb r_eq r_pol sx cx sy cy : ℝ) :
    rS r_orb r_eq r_pol sx cx (-sy) cy = rS r_orb r_eq r_pol sx cx sy cy := by
  have h : aVar r_eq r_pol sx cx (-sy) cy = aVar r_eq r_pol sx cx sy cy := by
    unfold aVar; ring
  simp only [rS, h]

lemma latOfRs_neg_sx (r_orb r_eq r_pol sx cx sy cy rs : ℝ) :
    latOfRs r_orb r_eq r_pol (-sx) cx sy cy rs =
      latOfRs r_orb r_eq r_pol sx cx sy cy rs := by
  unfold latOfRs
  have h : (r_orb - rs * cx * cy) * (r_orb - rs * cx * cy) + -rs * -sx * (-rs * -sx) =
      (r_orb - rs * cx * cy) * (r_orb - rs * cx * cy) + -rs * sx * (-rs * sx) := by
    ring
  rw [h]

lemma latOfRs_neg_sy (r_orb r_eq r_pol sx cx sy cy rs : ℝ) :
    latOfRs r_orb r_eq r_pol sx cx (-sy) cy rs =
      -(latOfRs r_orb r_eq r_pol sx cx sy cy rs) := by
  unfold latOfRs rad2deg
  generalize Real.sqrt ((r_orb - rs * cx * cy) * (r_orb - rs * cx * cy) +
    -rs * sx * (-rs * sx)) = S
  rw [show r_eq * r_eq / (r_pol * r_pol) * (rs * cx * -sy / S) =
      -(r_eq * r_eq / (r_pol * r_pol) * (rs * cx * sy / S)) from by ring,
    Real.arctan_neg]
  ring

lemma lonOfRs_neg_sx (r_orb sx cx cy rs : ℝ) :
    lonOfRs r_orb (-sx) cx cy rs = -(lonOfRs r_orb sx cx cy rs) := by
  unfold lonOfRs rad2deg
  rw [show -rs * -sx / (rs * cx * cy - r_orb) =
      -(-rs * sx / (rs * cx * cy - r_orb)) from by ring,
    Real.arctan_neg]
  ring

lemma latCell_neg_x (r_orb r_eq r_pol x y : ℝ) :
    latCell r_orb r_eq r_pol (-x) y = latCell r_orb r_eq r_pol x y := by
  unfold latCell
  rw [sin_neg, cos_neg, computeLatLonCell_eq, computeLatLonCell_eq, rS_neg_sx]
  exact congrArg (fun f => Option.map f (rS r_orb r_eq r_pol (sin x) (cos x) (sin y) (cos y)))
    (funext fun rs => latOfRs_neg_sx r_orb r_eq r_pol (sin x) (cos x) (sin y) (cos y) rs)

lemma latCell_neg_y (r_orb r_eq r_pol x y : ℝ) :
    latCell r_orb r_eq r_pol x (-y) = (latCell r_orb r_eq r_pol x y).map Neg.neg := by
  unfold latCell
  rw [sin_neg, cos_neg, computeLatLonCell_eq, computeLatLonCell_eq, rS_neg_sy]
  rw [Option.map_map]
  exact congrArg (fun f => Option.map f (rS r_orb r_eq r_pol (sin x) (cos x) (sin y) (cos y)))
    (funext fun rs => latOfRs_neg_sy r_orb r_eq r_pol (sin x) (cos x) (sin y) (cos y) rs)

lemma lonCell_neg_x (r_orb r_eq r_pol x y : ℝ) :
    lonCell r_orb r_eq r_pol (-x) y = (lonCell r_orb r_eq r_pol x y).map Neg.neg := by
  unfold lonCell
  rw [sin_neg, cos_neg, computeLatLonCell_eq, computeLatLonCell_eq, rS_neg_sx]
  rw [Option.map_map]
  exact congrArg (fun f => Option.map f (rS r_orb r_eq r_pol (sin x) (cos x) (sin y) (cos y)))
    (funext fun rs => lonOfRs_neg_sx r_orb (sin x) (cos x) (cos y) rs)

lemma lonCell_neg_y (r_orb r_eq r_pol x y : ℝ) :
    lonCell r_orb r_eq r_pol x (-y) = lonCell r_orb r_eq r_pol x y := by
  unfold lonCell
  rw [sin_neg, cos_neg, computeLatLonCell_eq, computeLatLonCell_eq, rS_neg_sy]

/-! ## Grids as index functions -/

/-- A 2-D float array with NaN cells, as an index function (`none` = NaN).
Reads outside the actual shape of the array are junk and never constrained. -/
abbrev Grid := ℕ → ℕ → Option ℝ

/-- Read a 1-D float vector; out-of-range reads are junk (`0`). -/
def gD (v : List ℝ) (i : ℕ) : ℝ := v.getD i 0

lemma gD_drop (v : List ℝ) (c j : ℕ) : gD (v.drop c) j = gD v (c + j) := by
  simp [gD, List.getD_eq_getElem?_getD, List.getElem?_drop]

lemma gD_reverse (v : List ℝ) (i : ℕ) (h : i < v.length) :
    gD v.reverse i = gD v (v.length - 1 - i) := by
  have h' : i < v.reverse.length := by simpa using h
  have h2 : v.length - 1 - i < v.length := by omega
  simp only [gD, List.getD_eq_getElem?_getD]
  rw [List.getElem?_eq_getElem h', List.getElem?_eq_getElem h2]
  simp [List.getElem_reverse]

/-- `numpy.vstack` of a `r1`-row block on top of another block. -/
def vstackG (r1 : ℕ) (top bottom : Grid) : Grid := fun i j =>
  if i < r1 then top i j else bottom (i - r1) j

/-- `numpy.hstack` of a `c1`-column block to the left of another block. -/
def hstackG (c1 : ℕ) (left right : Grid) : Grid := fun i j =>
  if j < c1 then left i j else right i (j - c1)

/-- `_reconstruct_lat_grid` of `grid_fast.py` on an `m × m` north-east
quadrant: the south-east block is the negated row-reversal of the quadrant
(`[-2::-1, :]` when `odd_size`, dropping the shared centre row, `[::-1, :]`
otherwise), the west block is the column-reversal of the east block
(`[:, -1:0:-1]` when `odd_size`, dropping the shared centre column,
`[:, ::-1]` otherwise). -/
def reconstructLatGrid (m : ℕ) (oddSize : Bool) (ne : Grid) : Grid :=
  let se : Grid := fun i j => (ne ((if oddSize then m - 2 else m - 1) - i) j).map Neg.neg
  let east := vstackG m ne se
  let wWest := if oddSize then m - 1 else m
  let west : Grid := fun i j => east i (m - 1 - j)
  hstackG wWest west east

/-- `_reconstruct_lon_grid` of `grid_fast.py`: the north-west block is the
negated column-reversal of the quadrant, the south block is the
row-reversal of the north block (parity handling as for latitude). -/
def reconstructLonGrid (m : ℕ) (oddSize : Bool) (ne : Grid) : Grid :=
  let nw : Grid := fun i j => (ne i (m - 1 - j)).map Neg.neg
  let wNW := if oddSize then m - 1 else m
  let north := hstackG wNW nw ne
  let south : Grid := fun i j => north ((if oddSize then m - 2 else m - 1) - i) j
  vstackG m north south

/-- Cell characterization of `reconstructLatGrid`: both halves read the same
source column of the east block; rows at or below the centre are negated
mirror rows of the quadrant. -/
lemma reconstructLatGrid_cell (m : ℕ) (oddSize : Bool) (ne : Grid) (i j : ℕ) :
    reconstructLatGrid m oddSize ne i j =
      (let w := if oddSize then m - 1 else m
       let c := if j < w then m - 1 - j else j - w
       if i < m then ne i c
       else (ne ((if oddSize then m - 2 else m - 1) - (i - m)) c).map Neg.neg) := by
  unfold reconstructLatGrid vstackG hstackG
  by_cases hj : j < (if oddSize then m - 1 else m) <;> by_cases hi : i < m <;>
    simp [hj, hi]

/-- Cell characterization of `reconstructLonGrid`. -/
lemma reconstructLonGrid_cell (m : ℕ) (oddSize : Bool) (ne : Grid) (i j : ℕ) :
    reconstructLonGrid m oddSize ne i j =
      (let w := if oddSize then m - 1 else m
       let r := if i < m then i else (if oddSize then m - 2 else m - 1) - (i - m)
       if j < w then (ne r (m - 1 - j)).map Neg.neg
       else ne r (j - w)) := by
  unfold reconstructLonGrid vstackG hstackG
  by_cases hj : j < (if oddSize then m - 1 else m) <;> by_cases hi : i < m <;>
    simp [hj, hi]

/-! ## The direct grid builder (`calculate_latlon_grid_opti`, identically
`calculate_latlon_grid_goesdr`): `sin`/`cos` of the 1-D vectors, meshgrid
expansion, the core transform, then the longitude-origin shift. -/

/-- Latitude grid of `calculate_latlon_grid_opti` /
`calculate_latlon_grid_goesdr`: row `i` is governed by `y[i]`, column `j`
by `x[j]`. -/
def latGridOpti (r_orb r_eq r_pol : ℝ) (xs ys : List ℝ) : Grid := fun i j =>
  latCell r_orb r_eq r_pol (gD xs j) (gD ys i)

/-- Longitude grid of `calculate_latlon_grid_opti` /
`calculate_latlon_grid_goesdr`, including the
`longitude_of_projection_origin` shift (`lon + lambda_0`). -/
def lonGridOpti (r_orb r_eq r_pol lambda0 : ℝ) (xs ys : List ℝ) : Grid := fun i j =>
  (lonCell r_orb r_eq r_pol (gD xs j) (gD ys i)).map (· + lambda0)

/-! ## The symmetry-accelerated builder (`calculate_latlon_grid_fast`) -/

/-- The north-east quadrant of `calculate_latlon_grid_fast`:
`grid_x = x[center:]` with `center = len(x) // 2`, `grid_y = grid_x[::-1]`;
the core transform on their meshgrid. -/
def neQuadrant (r_orb r_eq r_pol : ℝ) (xs : List ℝ) : ℕ → ℕ → Option ℝ × Option ℝ :=
  fun i j =>
    let gridX := xs.drop (xs.length / 2)
    let gridY := gridX.reverse
    computeLatLonCell r_orb r_eq r_pol
      (sin (gD gridX j)) (cos (gD gridX j)) (sin (gD gridY i)) (cos (gD gridY i))

/-- Latitude grid of `calculate_latlon_grid_fast`: quadrant computation plus
`_reconstruct_lat_grid`, with `odd_size = bool(len(x) % 2)` and the quadrant
size `len(x) - len(x) // 2`. -/
def latGridFast (r_orb r_eq r_pol : ℝ) (xs : List ℝ) : Grid :=
  reconstructLatGrid (xs.length - xs.length / 2) (xs.length % 2 == 1)
    (fun i j => (neQuadrant r_orb r_eq r_pol xs i j).1)

/-- Longitude grid of `calculate_latlon_grid_fast`: quadrant computation,
`_reconstruct_lon_grid`, then the `lon + lambda_0` shift. -/
def lonGridFast (r_orb r_eq r_pol lambda0 : ℝ) (xs : List ℝ) : Grid := fun i j =>
  (reconstructLonGrid (xs.length - xs.length / 2) (xs.length % 2 == 1)
    (fun i j => (neQuadrant r_orb r_eq r_pol xs i j).2) i j).map (· + lambda0)

lemma neQuadrant_eq (r_orb r_eq r_pol : ℝ) (xs : List ℝ) (i j : ℕ)
    (hi : i < xs.length - xs.length / 2) :
    neQuadrant r_orb r_eq r_pol xs i j =
      computeLatLonCell r_orb r_eq r_pol
        (sin (gD xs (xs.length / 2 + j))) (cos (gD xs (xs.length / 2 + j)))
        (sin (gD xs (xs.length - 1 - i))) (cos (gD xs (xs.length - 1 - i))) := by
  unfold neQuadrant
  have hlen : (xs.drop (xs.length / 2)).length = xs.length - xs.length / 2 :=
    List.length_drop _ _
  have hx : gD (xs.drop (xs.length / 2)) j = gD xs (xs.length / 2 + j) := gD_drop xs _ j
  have hy : gD (xs.drop (xs.length / 2)).reverse i = gD xs (xs.length - 1 - i) := by
    rw [gD_reverse _ _ (by omega), hlen, gD_drop]
    congr 1
    omega
  simp only [hx, hy]

lemma latCell_def (r_orb r_eq r_pol x y : ℝ) :
    (computeLatLonCell r_orb r_eq r_pol (sin x) (cos x) (sin y) (cos y)).1 =
      latCell r_orb r_eq r_pol x y := rfl

lemma lonCell_def (r_orb r_eq r_pol x y : ℝ) :
    (computeLatLonCell r_orb r_eq r_pol (sin x) (cos x) (sin y) (cos y)).2 =
      lonCell r_orb r_eq r_pol x y := rfl

lemma fastLat_cell (r_orb r_eq r_pol : ℝ) (xs ys : List ℝ)
    (hrev : ∀ i < xs.length, gD ys i = gD xs (xs.length - 1 - i))
    (hanti : ∀ i < xs.length, gD xs (xs.length - 1 - i) = -gD xs i)
    (i j : ℕ) (hi : i < xs.length) (hj : j < xs.length) :
    latGridFast r_orb r_eq r_pol xs i j = latGridOpti r_orb r_eq r_pol xs ys i j := by
  have hxi : gD xs i = -gD xs (xs.length - 1 - i) := by
    have h := hanti (xs.length - 1 - i) (by omega)
    rw [show xs.length - 1 - (xs.length - 1 - i) = i from by omega] at h
    exact h
  unfold latGridFast latGridOpti
  rw [reconstructLatGrid_cell, hrev i hi]
  rcases Nat.mod_two_eq_zero_or_one xs.length with h2 | h2
  · -- even length: the quadrant has m = n / 2 rows and columns, n = 2·m
    have hodd : (xs.length % 2 == 1) = false := by rw [h2]; rfl
    rw [hodd]
    simp only [Bool.false_eq_true, if_false]
    by_cases hjw : j < xs.length - xs.length / 2 <;>
      by_cases him : i < xs.length - xs.length / 2 <;>
        simp only [hjw, him, if_pos, if_neg, if_true, if_false]
    · -- west block, north half
      rw [neQuadrant_eq _ _ _ _ _ _ him, latCell_def,
        show xs.length / 2 + (xs.length - xs.length / 2 - 1 - j) =
          xs.length - 1 - j from by omega,
        hanti j hj, latCell_neg_x]
    · -- west block, south half
      rw [neQuadrant_eq _ _ _ _ _ _ (by omega), latCell_def,
        show xs.length / 2 + (xs.length - xs.length / 2 - 1 - j) =
          xs.length - 1 - j from by omega,
        show xs.length - 1 - (xs.length - xs.length / 2 - 1 -
          (i - (xs.length - xs.length / 2))) = i from by omega,
        hanti j hj, latCell_neg_x, hxi, latCell_neg_y, Option.map_map]
      simp
    · -- east block, north half
      rw [neQuadrant_eq _ _ _ _ _ _ him, latCell_def,
        show xs.length / 2 + (j - (xs.length - xs.length / 2)) = j from by omega]
    · -- east block, south half
      rw [neQuadrant_eq _ _ _ _ _ _ (by omega), latCell_def,
        show xs.length / 2 + (j - (xs.length - xs.length / 2)) = j from by omega,
        show xs.length - 1 - (xs.length - xs.length / 2 - 1 -
          (i - (xs.length - xs.length / 2))) = i from by omega,
        hxi, latCell_neg_y, Option.map_map]
      simp
  · -- odd length: the shared centre row/column is dropped while mirroring
    have hodd : (xs.length % 2 == 1) = true := by rw [h2]; rfl
    rw [hodd]
    simp only [if_true]
    by_cases hjw : j < xs.length - xs.length / 2 - 1 <;>
      by_cases him : i < xs.length - xs.length / 2 <;>
        simp only [hjw, him, if_pos, if_neg, if_true, if_false]
    · rw [neQuadrant_eq _ _ _ _ _ _ him, latCell_def,
        show xs.length / 2 + (xs.length - xs.length / 2 - 1 - j) =
          xs.length - 1 - j from by omega,
        hanti j hj, latCell_neg_x]
    · rw [neQuadrant_eq _ _ _ _ _ _ (by omega), latCell_def,
        show xs.length / 2 + (xs.length - xs.length / 2 - 1 - j) =
          xs.length - 1 - j from by omega,
        show xs.length - 1 - (xs.length - xs.length / 2 - 2 -
          (i - (xs.length - xs.length / 2))) = i from by omega,
        hanti j hj, latCell_neg_x, hxi, latCell_neg_y, Option.map_map]
      simp
    · rw [neQuadrant_eq _ _ _ _ _ _ him, latCell_def,
        show xs.length / 2 + (j - (xs.length - xs.length / 2 - 1)) = j from by omega]
    · rw [neQuadrant_eq _ _ _ _ _ _ (by omega), latCell_def,
        show xs.length / 2 + (j - (xs.length - xs.length / 2 - 1)) = j from by omega,
        show xs.length - 1 - (xs.length - xs.length / 2 - 2 -
          (i - (xs.length - xs.length / 2))) = i from by omega,
        hxi, latCell_neg_y, Option.map_map]
      simp

lemma fastLon_cell (r_orb r_eq r_pol lambda0 : ℝ) (xs ys : List ℝ)
    (hrev : ∀ i < xs.length, gD ys i = gD xs (xs.length - 1 - i))
    (hanti : ∀ i < xs.length, gD xs (xs.length - 1 - i) = -gD xs i)
    (i j : ℕ) (hi : i < xs.length) (hj : j < xs.length) :
    lonGridFast r_orb r_eq r_pol lambda0 xs i j =
      lonGridOpti r_orb r_eq r_pol lambda0 xs ys i j := by
  have hxi : gD xs i = -gD xs (xs.length - 1 - i) := by
    have h := hanti (xs.length - 1 - i) (by omega)
    rw [show xs.length - 1 - (xs.length - 1 - i) = i from by omega] at h
    exact h
  unfold lonGridFast lonGridOpti
  refine congrArg (fun o => Option.map (fun v => v + lambda0) o) ?_
  rw [reconstructLonGrid_cell, hrev i hi]
  rcases Nat.mod_two_eq_zero_or_one xs.length with h2 | h2
  · have hodd : (xs.length % 2 == 1) = false := by rw [h2]; rfl
    rw [hodd]
    simp only [Bool.false_eq_true, if_false]
    by_cases hjw : j < xs.length - xs.length / 2 <;>
      by_cases him : i < xs.length - xs.length / 2 <;>
        simp only [hjw, him, if_pos, if_neg, if_true, if_false]
    · -- north-west block
      rw [neQuadrant_eq _ _ _ _ _ _ him, lonCell_def,
        show xs.length / 2 + (xs.length - xs.length / 2 - 1 - j) =
          xs.length - 1 - j from by omega,
        ← lonCell_neg_x, hanti j hj, neg_neg]
    · -- south-west block
      rw [neQuadrant_eq _ _ _ _ _ _ (by omega), lonCell_def,
        show xs.length / 2 + (xs.length - xs.length / 2 - 1 - j) =
          xs.length - 1 - j from by omega,
        show xs.length - 1 - (xs.length - xs.length / 2 - 1 -
          (i - (xs.length - xs.length / 2))) = i from by omega,
        hxi, lonCell_neg_y, ← lonCell_neg_x, hanti j hj, neg_neg]
    · -- north-east block
      rw [neQuadrant_eq _ _ _ _ _ _ him, lonCell_def,
        show xs.length / 2 + (j - (xs.length - xs.length / 2)) = j from by omega]
    · -- south-east block
      rw [neQuadrant_eq _ _ _ _ _ _ (by omega), lonCell_def,
        show xs.length / 2 + (j - (xs.length - xs.length / 2)) = j from by omega,
        show xs.length - 1 - (xs.length - xs.length / 2 - 1 -
          (i - (xs.length - xs.length / 2))) = i from by omega,
        hxi, lonCell_neg_y]
  · have hodd : (xs.length % 2 == 1) = true := by rw [h2]; rfl
    rw [hodd]
    simp only [if_true]
    by_cases hjw : j < xs.length - xs.length / 2 - 1 <;>
      by_cases him : i < xs.length - xs.length / 2 <;>
        simp only [hjw, him, if_pos, if_neg, if_true, if_false]
    · rw [neQuadrant_eq _ _ _ _ _ _ him, lonCell_def,
        show xs.length / 2 + (xs.length - xs.length / 2 - 1 - j) =
          xs.length - 1 - j from by omega,
        ← lonCell_neg_x, hanti j hj, neg_neg]
    · rw [neQuadrant_eq _ _ _ _ _ _ (by omega), lonCell_def,
        show xs.length / 2 + (xs.length - xs.length / 2 - 1 - j) =
          xs.length - 1 - j from by omega,
        show xs.length - 1 - (xs.length - xs.length / 2 - 2 -
          (i - (xs.length - xs.length / 2))) = i from by omega,
        hxi, lonCell_neg_y, ← lonCell_neg_x, hanti j hj, neg_neg]
    · rw [neQuadrant_eq _ _ _ _ _ _ him, lonCell_def,
        show xs.length / 2 + (j - (xs.length - xs.length / 2 - 1)) = j from by omega]
    · rw [neQuadrant_eq _ _ _ _ _ _ (by omega), lonCell_def,
        show xs.length / 2 + (j - (xs.length - xs.length / 2 - 1)) = j from by omega,
        show xs.length - 1 - (xs.length - xs.length / 2 - 2 -
          (i - (xs.length - xs.length / 2))) = i from by omega,
        hxi, lonCell_neg_y]

/-- At scan angles `(0, 0)` the core transform is exact: `a = 1`, the
discriminant is `(2·r_eq)²`, `r_s = r_orb - r_eq`, `s_y = s_z = 0`. -/
lemma cell_origin (r_orb r_eq r_pol : ℝ) (hor : 0 ≤ r_eq) :
    computeLatLonCell r_orb r_eq r_pol (sin 0) (cos 0) (sin 0) (cos 0) =
      (some 0, some 0) := by
  rw [Real.sin_zero, Real.cos_zero, computeLatLonCell_eq]
  have hrs : rS r_orb r_eq r_pol 0 1 0 1 = some (r_orb - r_eq) := by
    unfold rS npSqrt
    rw [show bVar r_orb 1 1 ^ 2 - 4 * aVar r_eq r_pol 0 1 0 1 * cVar r_orb r_eq =
        (2 * r_eq) ^ 2 from by unfold aVar bVar cVar; ring,
      if_neg (not_lt.mpr (sq_nonneg _)), Option.map_some', Real.sqrt_sq (by linarith)]
    congr 1
    unfold aVar bVar
    norm_num
    ring
  rw [hrs]
  simp [latOfRs, lonOfRs, rad2deg]

lemma latCell_origin (r_orb r_eq r_pol : ℝ) (hor : 0 ≤ r_eq) :
    latCell r_orb r_eq r_pol 0 0 = some 0 := by
  unfold latCell
  rw [cell_origin r_orb r_eq r_pol hor]

lemma lonCell_origin (r_orb r_eq r_pol : ℝ) (hor : 0 ≤ r_eq) :
    lonCell r_orb r_eq r_pol 0 0 = some 0 := by
  unfold lonCell
  rw [cell_origin r_orb r_eq r_pol hor]

/-- C1 (amended): when the `y` scan-angle vector is the elementwise reverse
of `x` and `x` is antisymmetric about its centre (`x[n-1-i] = -x[i]`, the
mirror-symmetry precondition the fast path assumes), the
symmetry-accelerated grid of `calculate_latlon_grid_fast` equals the direct
grid of `calculate_latlon_grid_opti` exactly — in particular within 1e-5
degrees — at every cell, for both even- and odd-length angle vectors and
every parameter set. -/
theorem fast_matches_opti_of_mirror_symmetric
    (r_orb r_eq r_pol lambda0 : ℝ) (xs ys : List ℝ)
    (hlen : ys.length = xs.length)
    (hrev : ∀ i < xs.length, gD ys i = gD xs (xs.length - 1 - i))
    (hanti : ∀ i < xs.length, gD xs (xs.length - 1 - i) = -gD xs i)
    (i j : ℕ) (hi : i < xs.length) (hj : j < xs.length) :
    latGridFast r_orb r_eq r_pol xs i j = latGridOpti r_orb r_eq r_pol xs ys i j ∧
    lonGridFast r_orb r_eq r_pol lambda0 xs i j =
      lonGridOpti r_orb r_eq r_pol lambda0 xs ys i j :=
  ⟨fastLat_cell r_orb r_eq r_pol xs ys hrev hanti i j hi hj,
   fastLon_cell r_orb r_eq r_pol lambda0 xs ys hrev hanti i j hi hj⟩

/-- Witness for the amended theorem of C1 at the mirror-symmetric pair
`x = [-1, 0, 1]`, `y = [1, 0, -1]`. -/
theorem fast_matches_opti_witness :
    (([(1 : ℝ), 0, -1] : List ℝ).length = ([(-1 : ℝ), 0, 1] : List ℝ).length) ∧
    (∀ i < ([(-1 : ℝ), 0, 1] : List ℝ).length,
      gD [(1 : ℝ), 0, -1] i = gD [(-1 : ℝ), 0, 1] (([(-1 : ℝ), 0, 1] : List ℝ).length - 1 - i)) ∧
    (∀ i < ([(-1 : ℝ), 0, 1] : List ℝ).length,
      gD [(-1 : ℝ), 0, 1] (([(-1 : ℝ), 0, 1] : List ℝ).length - 1 - i) = -gD [(-1 : ℝ), 0, 1] i) ∧
    latGridFast 2 1 1 [(-1 : ℝ), 0, 1] 0 0 = latGridOpti 2 1 1 [(-1 : ℝ), 0, 1] [(1 : ℝ), 0, -1] 0 0 := by
  have hrev : ∀ i < ([(-1 : ℝ), 0, 1] : List ℝ).length,
      gD [(1 : ℝ), 0, -1] i = gD [(-1 : ℝ), 0, 1] (([(-1 : ℝ), 0, 1] : List ℝ).length - 1 - i) := by
    intro i hi
    simp only [List.length_cons, List.length_nil] at hi
    interval_cases i <;> norm_num [gD]
  have hanti : ∀ i < ([(-1 : ℝ), 0, 1] : List ℝ).length,
      gD [(-1 : ℝ), 0, 1] (([(-1 : ℝ), 0, 1] : List ℝ).length - 1 - i) = -gD [(-1 : ℝ), 0, 1] i := by
    intro i hi
    simp only [List.length_cons, List.length_nil] at hi
    interval_cases i <;> norm_num [gD]
  exact ⟨rfl, hrev, hanti,
    (fast_matches_opti_of_mirror_symmetric 2 1 1 0 [(-1 : ℝ), 0, 1] [(1 : ℝ), 0, -1]
      rfl hrev hanti 0 0 (by norm_num) (by norm_num)).1⟩

/-- C1 counterexample: the claim fails for general strictly monotonic
vectors.  With valid scalars `r_orb = 2 > r_eq = 1 ≥ r_pol = 1 > 0` and the
strictly monotonic equal vectors `x = y = [0, π/2]`, the fast grid evaluates
its quadrant at the off-globe angle pair `(π/2, π/2)` and masks cell
`(0,0)`, while the direct grid returns latitude `0` there — not within
1e-5 degrees of each other. -/
theorem fast_differs_from_opti_on_monotonic_input :
    (0 : ℝ) < Real.pi / 2 ∧
    latGridFast 2 1 1 [(0 : ℝ), Real.pi / 2] 0 0 = none ∧
    latGridOpti 2 1 1 [(0 : ℝ), Real.pi / 2] [(0 : ℝ), Real.pi / 2] 0 0 = some 0 := by
  refine ⟨Real.pi_div_two_pos, ?_, ?_⟩
  · unfold latGridFast
    rw [reconstructLatGrid_cell]
    norm_num [neQuadrant, gD, computeLatLonCell, makeCommonMaskCell, rS, npSqrt,
      aVar, bVar, cVar, Real.sin_pi_div_two, Real.cos_pi_div_two]
  · unfold latGridOpti
    rw [show gD [(0 : ℝ), Real.pi / 2] 0 = 0 from rfl]
    exact latCell_origin 2 1 1 (by norm_num)

/-- C3: for every cell whose discriminant `b² - 4ac` is negative (an
off-globe viewing ray), the core transform yields NaN in both the latitude
and the longitude output for that cell.  The embedded computation is a
total function — it produces a value for every cell, modelling that the
array computation completes without raising. -/
theorem negative_discriminant_yields_nan_pair (r_orb r_eq r_pol x y : ℝ)
    (h : discCell r_orb r_eq r_pol x y < 0) :
    latCell r_orb r_eq r_pol x y = none ∧ lonCell r_orb r_eq r_pol x y = none := by
  have h' : bVar r_orb (cos x) (cos y) ^ 2 -
      4 * aVar r_eq r_pol (sin x) (cos x) (sin y) (cos y) * cVar r_orb r_eq < 0 := h
  have hrs : rS r_orb r_eq r_pol (sin x) (cos x) (sin y) (cos y) = none := by
    unfold rS npSqrt
    rw [if_pos h']
    rfl
  unfold latCell lonCell
  rw [computeLatLonCell_eq, hrs]
  exact ⟨rfl, rfl⟩

/-- Witness for C3 at `r_orb = 2`, `r_eq = r_pol = 1`, `x = π/2`, `y = 0`:
the discriminant is `-12`. -/
theorem negative_discriminant_witness :
    discCell 2 1 1 (Real.pi / 2) 0 < 0 ∧
    latCell 2 1 1 (Real.pi / 2) 0 = none ∧ lonCell 2 1 1 (Real.pi / 2) 0 = none := by
  have h : discCell 2 1 1 (Real.pi / 2) 0 < 0 := by
    norm_num [discCell, aVar, bVar, cVar, Real.sin_pi_div_two, Real.cos_pi_div_two]
  exact ⟨h, negative_discriminant_yields_nan_pair 2 1 1 (Real.pi / 2) 0 h⟩

/-- C8: at the sub-satellite point (scan angles `x = 0`, `y = 0`) the core
transform returns latitude within 1e-6 degrees of 0 and, after the origin
shift applied by every backend, longitude within 1e-6 degrees of
`longitude_of_projection_origin`, for every valid scalar set
`r_orb > r_eq ≥ r_pol > 0` (the result is in fact exact). -/
theorem subsatellite_point_latlon (r_orb r_eq r_pol lambda0 : ℝ)
    (h1 : r_eq < r_orb) (h2 : r_pol ≤ r_eq) (h3 : 0 < r_pol) :
    ∃ la lo, latCell r_orb r_eq r_pol 0 0 = some la ∧
      (lonCell r_orb r_eq r_pol 0 0).map (· + lambda0) = some lo ∧
      |la - 0| ≤ 1e-6 ∧ |lo - lambda0| ≤ 1e-6 := by
  refine ⟨0, lambda0, latCell_origin _ _ _ (by linarith), ?_, by norm_num, by norm_num⟩
  rw [lonCell_origin _ _ _ (by linarith)]
  simp

/-- Witness for C8 with the GOES-East-like scalars scaled to
`(r_orb, r_eq, r_pol) = (2, 1, 1)` and `lambda_0 = -75`. -/
theorem subsatellite_point_witness :
    ((1 : ℝ) < 2 ∧ (1 : ℝ) ≤ 1 ∧ (0 : ℝ) < 1) ∧
    ∃ la lo, latCell 2 1 1 0 0 = some la ∧
      (lonCell 2 1 1 0 0).map (· + (-75)) = some lo ∧
      |la - 0| ≤ 1e-6 ∧ |lo - (-75)| ≤ 1e-6 :=
  ⟨by norm_num,
   subsatellite_point_latlon 2 1 1 (-75) (by norm_num) (by norm_num) (by norm_num)⟩

/-! ## Pixel-edge interpolation (`calculate_pixel_edges`) -/

/-- `calculate_pixel_edges` of `helper.py` / `grid_helper.py`: the two
extrapolated offsets `2·centers[0] - centers[1]` and
`2·centers[-1] - centers[-2]` are prepended/appended and the result is the
elementwise mean `0.5·(left_centers + right_centers)`.  The reads
`centers[1]` and `centers[-2]` raise `IndexError` on vectors with fewer
than two elements; the failure is modelled by `none`. -/
def calculate_pixel_edges (centers : List ℝ) : Option (List ℝ) :=
  match centers[0]?, centers[1]?, centers[centers.length - 1]?, centers[centers.length - 2]? with
  | some c0, some c1, some cLast, some cPrev =>
    some (List.zipWith (fun a b => 0.5 * (a + b))
      ((2 * c0 - c1) :: centers) (centers ++ [2 * cLast - cPrev]))
  | _, _, _, _ => none

lemma pixel_edges_eq (centers : List ℝ) (h : 2 ≤ centers.length) :
    calculate_pixel_edges centers = some (List.zipWith (fun a b => 0.5 * (a + b))
      ((2 * gD centers 0 - gD centers 1) :: centers)
      (centers ++ [2 * gD centers (centers.length - 1) -
        gD centers (centers.length - 2)])) := by
  unfold calculate_pixel_edges
  rw [List.getElem?_eq_getElem (by omega), List.getElem?_eq_getElem (by omega),
    List.getElem?_eq_getElem (show centers.length - 1 < centers.length by omega),
    List.getElem?_eq_getElem (show centers.length - 2 < centers.length by omega)]
  simp only [gD, List.getD_eq_getElem _ _ (show (0 : ℕ) < centers.length by omega),
    List.getD_eq_getElem _ _ (show (1 : ℕ) < centers.length by omega),
    List.getD_eq_getElem _ _ (show centers.length - 1 < centers.length by omega),
    List.getD_eq_getElem _ _ (show centers.length - 2 < centers.length by omega)]

lemma gD_zipWith (f : ℝ → ℝ → ℝ) (as bs : List ℝ) (i : ℕ)
    (ha : i < as.length) (hb : i < bs.length) :
    gD (List.zipWith f as bs) i = f (gD as i) (gD bs i) := by
  have hz : i < (List.zipWith f as bs).length := by
    rw [List.length_zipWith]; omega
  rw [gD, gD, gD, List.getD_eq_getElem _ _ hz, List.getD_eq_getElem _ _ ha,
    List.getD_eq_getElem _ _ hb, List.getElem_zipWith]

lemma gD_cons_succ (a : ℝ) (l : List ℝ) (i : ℕ) : gD (a :: l) (i + 1) = gD l i := by
  simp [gD]

lemma gD_append_left (as bs : List ℝ) (i : ℕ) (h : i < as.length) :
    gD (as ++ bs) i = gD as i := by
  rw [gD, gD, List.getD_eq_getElem _ _ (by simp; omega), List.getD_eq_getElem _ _ h,
    List.getElem_append_left]

lemma gD_concat_last (as : List ℝ) (b : ℝ) : gD (as ++ [b]) as.length = b := by
  rw [gD, List.getD_eq_getElem _ _ (by simp)]
  rw [List.getElem_append_right] <;> simp

lemma gD_cons_zero (a : ℝ) (l : List ℝ) : gD (a :: l) 0 = a := rfl

lemma gD_cons_at_length (a : ℝ) (l : List ℝ) (h : 1 ≤ l.length) :
    gD (a :: l) l.length = gD l (l.length - 1) := by
  obtain ⟨k, hk⟩ : ∃ k, l.length = k + 1 := ⟨l.length - 1, by omega⟩
  rw [hk, gD_cons_succ]
  norm_num

/-- C4 (amended): on at least two centers, `calculate_pixel_edges` returns
`n + 1` edges; each interior edge is the midpoint of the two adjacent
centers; the first edge is `(3·centers[0] - centers[1]) / 2` — the midpoint
of `centers[0]` and the extrapolated point `2·centers[0] - centers[1]` —
and symmetrically the last edge is `(3·centers[-1] - centers[-2]) / 2` (the
claimed `2·centers[0] - centers[1]` is the extrapolated input the code
averages with `centers[0]`, not the produced edge); on a uniformly spaced
input with spacing `d`, every interior edge lies exactly `d/2` from its two
neighboring centers. -/
theorem pixel_edges_values (centers : List ℝ) (h2 : 2 ≤ centers.length) :
    ∃ es, calculate_pixel_edges centers = some es ∧
      es.length = centers.length + 1 ∧
      gD es 0 = (3 * gD centers 0 - gD centers 1) / 2 ∧
      gD es centers.length =
        (3 * gD centers (centers.length - 1) - gD centers (centers.length - 2)) / 2 ∧
      (∀ i, i + 1 < centers.length →
        gD es (i + 1) = (gD centers i + gD centers (i + 1)) / 2) ∧
      (∀ d : ℝ, (∀ i < centers.length, gD centers i = gD centers 0 + i * d) →
        ∀ i, i + 1 < centers.length →
          gD es (i + 1) - gD centers i = d / 2 ∧
          gD centers (i + 1) - gD es (i + 1) = d / 2) := by
  refine ⟨_, pixel_edges_eq centers h2, ?_, ?_, ?_, ?_, ?_⟩
  · simp [List.length_zipWith]
  · rw [gD_zipWith _ _ _ 0 (by simp) (by simp), gD_cons_zero,
      gD_append_left _ _ _ (by omega)]
    ring
  · rw [gD_zipWith _ _ _ centers.length (by simp) (by simp),
      gD_cons_at_length _ _ (by omega), gD_concat_last]
    ring
  · intro i hi
    rw [gD_zipWith _ _ _ (i + 1) (by simp; omega) (by simp; omega), gD_cons_succ,
      gD_append_left _ _ _ (by omega)]
    ring
  · intro d hd i hi
    rw [gD_zipWith _ _ _ (i + 1) (by simp; omega) (by simp; omega), gD_cons_succ,
      gD_append_left _ _ _ (by omega), hd i (by omega), hd (i + 1) (by omega)]
    push_cast
    constructor <;> ring

/-- Witness for the amended theorem of C4 at `centers = [0, 1, 2]` (spacing
`d = 1`). -/
theorem pixel_edges_values_witness :
    2 ≤ ([(0 : ℝ), 1, 2] : List ℝ).length ∧
    ∃ es, calculate_pixel_edges [(0 : ℝ), 1, 2] = some es ∧
      es.length = ([(0 : ℝ), 1, 2] : List ℝ).length + 1 ∧
      gD es 0 = (3 * gD [(0 : ℝ), 1, 2] 0 - gD [(0 : ℝ), 1, 2] 1) / 2 ∧
      gD es ([(0 : ℝ), 1, 2] : List ℝ).length =
        (3 * gD [(0 : ℝ), 1, 2] (([(0 : ℝ), 1, 2] : List ℝ).length - 1) -
          gD [(0 : ℝ), 1, 2] (([(0 : ℝ), 1, 2] : List ℝ).length - 2)) / 2 ∧
      (∀ i, i + 1 < ([(0 : ℝ), 1, 2] : List ℝ).length →
        gD es (i + 1) = (gD [(0 : ℝ), 1, 2] i + gD [(0 : ℝ), 1, 2] (i + 1)) / 2) ∧
      (∀ d : ℝ, (∀ i < ([(0 : ℝ), 1, 2] : List ℝ).length,
          gD [(0 : ℝ), 1, 2] i = gD [(0 : ℝ), 1, 2] 0 + i * d) →
        ∀ i, i + 1 < ([(0 : ℝ), 1, 2] : List ℝ).length →
          gD es (i + 1) - gD [(0 : ℝ), 1, 2] i = d / 2 ∧
          gD [(0 : ℝ), 1, 2] (i + 1) - gD es (i + 1) = d / 2) :=
  ⟨by norm_num, pixel_edges_values [(0 : ℝ), 1, 2] (by norm_num)⟩

/-- C4 counterexample: on `centers = [0, 1]` the first produced edge is
`-1/2 = (3·0 - 1)/2`, not the claimed `2·centers[0] - centers[1] = -1`. -/
theorem pixel_edges_first_edge_counterexample :
    ∃ es, calculate_pixel_edges [(0 : ℝ), 1] = some es ∧
      gD es 0 = -(1 / 2) ∧ (-(1 / 2) : ℝ) ≠ 2 * 0 - 1 := by
  refine ⟨_, pixel_edges_eq [(0 : ℝ), 1] (by norm_num), ?_, by norm_num⟩
  norm_num [gD, List.zipWith]

/-- C10: `calculate_pixel_edges` is total only on vectors with at least two
centers — there it returns `n + 1` edge coordinates — while on vectors of
length 0 or 1 it fails with an out-of-bounds index read (`centers[1]` /
`centers[-2]`), modelled by `none`. -/
theorem pixel_edges_length_requirement (centers : List ℝ) :
    (2 ≤ centers.length →
      ∃ es, calculate_pixel_edges centers = some es ∧ es.length = centers.length + 1) ∧
    (centers.length < 2 → calculate_pixel_edges centers = none) := by
  constructor
  · intro h
    exact ⟨_, pixel_edges_eq centers h, by simp [List.length_zipWith]⟩
  · intro h
    match centers, h with
    | [], _ => rfl
    | [a], _ => rfl

/-- Witness for C10 at the two-element vector `[0, 1]` and the singleton
`[5]`. -/
theorem pixel_edges_length_requirement_witness :
    (∃ es, calculate_pixel_edges [(0 : ℝ), 1] = some es ∧
      es.length = ([(0 : ℝ), 1] : List ℝ).length + 1) ∧
    calculate_pixel_edges [(5 : ℝ)] = none :=
  ⟨(pixel_edges_length_requirement [(0 : ℝ), 1]).1 (by norm_num),
   (pixel_edges_length_requirement [(5 : ℝ)]).2 (by norm_num)⟩

/-! ## Library-backend validity masking (`make_consistent`) and the
precomputed-grid loader (`GOESGeodeticGrid.from_file`) -/

open Classical in
/-- `make_consistent` of `helper.py` / `grid_helper.py`, pointwise: a cell
is valid when the longitude lies in `[-360, 360]` and the latitude in
`[-90, 90]` (NaN compares false, as in numpy); invalid cells become NaN in
both arrays; then `360` is subtracted from longitudes `≥ 180` and added to
longitudes `< -180`.  Returns `(longitude, latitude)` like the source. -/
def makeConsistentCell (lon lat : Option ℝ) : Option ℝ × Option ℝ :=
  if (∃ v, lon = some v ∧ -360 ≤ v ∧ v ≤ 360) ∧ (∃ u, lat = some u ∧ -90 ≤ u ∧ u ≤ 90) then
    let lon2 : Option ℝ := match lon with
      | some v => if 180 ≤ v then some (v - 360) else some v
      | none => none
    let lon3 : Option ℝ := match lon2 with
      | some v => if v < -180 then some (v + 360) else some v
      | none => none
    (lon3, lat)
  else (none, none)

lemma makeConsistentCell_invalid (lon lat : Option ℝ)
    (h : ¬ ((∃ v, lon = some v ∧ -360 ≤ v ∧ v ≤ 360) ∧
      (∃ u, lat = some u ∧ -90 ≤ u ∧ u ≤ 90))) :
    makeConsistentCell lon lat = (none, none) := by
  unfold makeConsistentCell
  rw [if_neg h]

lemma makeConsistentCell_some (v u : ℝ) (hv1 : -360 ≤ v) (hv2 : v ≤ 360)
    (hu1 : -90 ≤ u) (hu2 : u ≤ 90) :
    makeConsistentCell (some v) (some u) =
      (some (if 180 ≤ v then v - 360 else if v < -180 then v + 360 else v), some u) := by
  unfold makeConsistentCell
  rw [if_pos ⟨⟨v, rfl, hv1, hv2⟩, ⟨u, rfl, hu1, hu2⟩⟩]
  by_cases h180 : 180 ≤ v
  · simp only [if_pos h180]
    rw [if_neg (by linarith)]
  · simp only [if_neg h180]
    by_cases hm180 : v < -180 <;> simp [hm180]

lemma makeConsistentCell_none_iff (lon lat : Option ℝ) :
    ((makeConsistentCell lon lat).1 = none ↔ (makeConsistentCell lon lat).2 = none) := by
  by_cases h : (∃ v, lon = some v ∧ -360 ≤ v ∧ v ≤ 360) ∧
      (∃ u, lat = some u ∧ -90 ≤ u ∧ u ≤ 90)
  · obtain ⟨⟨v, hv, hv1, hv2⟩, ⟨u, hu, hu1, hu2⟩⟩ := h
    subst hv; subst hu
    rw [makeConsistentCell_some v u hv1 hv2 hu1 hu2]
    constructor <;> intro hc <;> simp at hc
  · rw [makeConsistentCell_invalid lon lat h]

/-- C5 (amended): after `make_consistent`, a cell is non-NaN only when the
input longitude lies in `[-360, 360]` and the latitude in `[-90, 90]`
(otherwise both outputs are NaN), and every valid output longitude
satisfies `-180 ≤ lon < 180` — the source maps an input longitude of
exactly `180` (or `-180`) to `-180`, so the normalized range is the
half-open interval closed on the left, not the claimed `(-180, 180]`. -/
theorem make_consistent_masks_and_normalizes (lon lat : Option ℝ) :
    (¬ ((∃ v, lon = some v ∧ -360 ≤ v ∧ v ≤ 360) ∧
        (∃ u, lat = some u ∧ -90 ≤ u ∧ u ≤ 90)) →
      makeConsistentCell lon lat = (none, none)) ∧
    (∀ w, (makeConsistentCell lon lat).1 = some w → -180 ≤ w ∧ w < 180) := by
  refine ⟨makeConsistentCell_invalid lon lat, ?_⟩
  intro w hw
  by_cases h : (∃ v, lon = some v ∧ -360 ≤ v ∧ v ≤ 360) ∧
      (∃ u, lat = some u ∧ -90 ≤ u ∧ u ≤ 90)
  · obtain ⟨⟨v, hv, hv1, hv2⟩, ⟨u, hu, hu1, hu2⟩⟩ := h
    subst hv; subst hu
    rw [makeConsistentCell_some v u hv1 hv2 hu1 hu2] at hw
    simp only [Option.some_inj] at hw
    subst hw
    by_cases h180 : 180 ≤ v
    · rw [if_pos h180]
      constructor <;> linarith
    · rw [if_neg h180]
      by_cases hm180 : v < -180
      · rw [if_pos hm180]
        constructor <;> linarith
      · rw [if_neg hm180]
        constructor <;> linarith
  · rw [makeConsistentCell_invalid lon lat h] at hw
    simp at hw

/-- Witness for the amended theorem of C5: longitude `400` is masked together
with its latitude, and a valid cell with longitude `170` stays in range. -/
theorem make_consistent_witness :
    makeConsistentCell (some 400) (some 0) = (none, none) ∧
    ((-180 : ℝ) ≤ 170 ∧ (170 : ℝ) < 180) := by
  constructor
  · refine (make_consistent_masks_and_normalizes (some 400) (some 0)).1 ?_
    rintro ⟨⟨v, hv, -, hv2⟩, -⟩
    rw [Option.some_inj] at hv
    subst hv
    norm_num at hv2
  · refine (make_consistent_masks_and_normalizes (some 170) (some 0)).2 170 ?_
    rw [makeConsistentCell_some 170 0 (by norm_num) (by norm_num) (by norm_num) (by norm_num)]
    norm_num

/-- C5 counterexample: an input longitude of exactly `180` (with a valid
latitude) is normalized to `-180`, a valid output outside the claimed
range `(-180, 180]`. -/
theorem make_consistent_longitude_180_counterexample :
    (makeConsistentCell (some 180) (some 0)).1 = some (-180) ∧
    ¬ ((-180 : ℝ) > -180 ∧ (-180 : ℝ) ≤ 180) := by
  constructor
  · rw [makeConsistentCell_some 180 0 (by norm_num) (by norm_num) (by norm_num) (by norm_num)]
    norm_num
  · simp

/-- The precomputed input read by `GOESGeodeticGrid.from_file` for one
variable: the stored float values (`none` models a stored NaN) and the
stored mask. -/
structure LatLonInput where
  data : ℕ → ℕ → Option ℝ
  mask : ℕ → ℕ → Bool

/-- `abi_lat.data[abi_lat.mask] = nan` of `from_file`: masked cells become
NaN in the data array; each variable uses only its own mask. -/
def maskFill (d : LatLonInput) : Grid := fun i j =>
  if d.mask i j then none else d.data i j

/-- `GOESGeodeticGrid.from_file` (the precomputed-grid loader, without
subsampling): each of the two variables is NaN-filled under its own mask,
with no cross-variable masking. -/
def fromFile (latIn lonIn : LatLonInput) : Grid × Grid :=
  (maskFill latIn, maskFill lonIn)

/-! ## Library-backed backends (`grid_pyproj.py`, `grid_cartopy.py`) -/

/-- The common core of the library-backed backends, given the third-party
inverse projection `geosInv` (out of scope; maps a point in meters to
`(lon, lat)` degrees): scale the scan angles by
`perspective_point_height`, apply the library pointwise over the meshgrid,
then `make_consistent`.  Returns `(latitude, longitude)` grids. -/
def libraryGrid (geosInv : ℝ → ℝ → ℝ × ℝ) (ppH : ℝ) (xs ys : List ℝ) : Grid × Grid :=
  (fun i j => (makeConsistentCell (some (geosInv (gD xs j * ppH) (gD ys i * ppH)).1)
      (some (geosInv (gD xs j * ppH) (gD ys i * ppH)).2)).2,
   fun i j => (makeConsistentCell (some (geosInv (gD xs j * ppH) (gD ys i * ppH)).1)
      (some (geosInv (gD xs j * ppH) (gD ys i * ppH)).2)).1)

/-- The curated error the external-library backends raise when the optional
library is absent: the source catches the original `ImportError` and
raises a fresh one whose message names the required package, chaining the
original.  Modelled structurally by the named package. -/
structure MissingDependency where
  package : String
deriving DecidableEq

/-- `calculate_latlon_grid_pyproj`: `geosInv?` is `none` when `pyproj` is
not installed (the `from pyproj import Proj` raises), in which case the
curated error naming `pyproj` is raised before any computation. -/
def calculate_latlon_grid_pyproj (geosInv? : Option (ℝ → ℝ → ℝ × ℝ)) (ppH : ℝ)
    (xs ys : List ℝ) : Except MissingDependency (Grid × Grid) :=
  match geosInv? with
  | none => .error ⟨"pyproj"⟩
  | some geosInv => .ok (libraryGrid geosInv ppH xs ys)

/-- `calculate_latlon_grid_cartopy`: as for pyproj, with the cartopy
`transform_points` call abstracted. -/
def calculate_latlon_grid_cartopy (transformPoints? : Option (ℝ → ℝ → ℝ × ℝ)) (ppH : ℝ)
    (xs ys : List ℝ) : Except MissingDependency (Grid × Grid) :=
  match transformPoints? with
  | none => .error ⟨"cartopy"⟩
  | some tp => .ok (libraryGrid tp ppH xs ys)

/-- C9: when the optional third-party library is absent, each
external-library backend fails with the curated missing-dependency error
naming its package — not with the propagated original import failure — and
the errors of the two backends are distinguishable from each other, so a caller
can react by retrying with a different backend. -/
theorem missing_dependency_error (ppH : ℝ) (xs ys : List ℝ) :
    calculate_latlon_grid_pyproj none ppH xs ys = .error ⟨"pyproj"⟩ ∧
    calculate_latlon_grid_cartopy none ppH xs ys = .error ⟨"cartopy"⟩ ∧
    (⟨"pyproj"⟩ : MissingDependency) ≠ ⟨"cartopy"⟩ :=
  ⟨rfl, rfl, by simp⟩

lemma computeCell_none_iff (r_orb r_eq r_pol sx cx sy cy : ℝ) :
    ((computeLatLonCell r_orb r_eq r_pol sx cx sy cy).1 = none ↔
     (computeLatLonCell r_orb r_eq r_pol sx cx sy cy).2 = none) := by
  rw [computeLatLonCell_eq]
  cases rS r_orb r_eq r_pol sx cx sy cy <;> simp

lemma neQuadrant_none_iff (r_orb r_eq r_pol : ℝ) (xs : List ℝ) (i j : ℕ) :
    ((neQuadrant r_orb r_eq r_pol xs i j).1 = none ↔
     (neQuadrant r_orb r_eq r_pol xs i j).2 = none) := by
  unfold neQuadrant
  exact computeCell_none_iff _ _ _ _ _ _ _

/-- C2 (amended): pairwise validity — latitude NaN iff longitude NaN at
every cell — holds for the internal direct backends (whose cells are
`compute_latlon_grid` after `make_common_mask`), for the
symmetry-accelerated backend (whose latitude and longitude reconstructions
read the same quadrant cell), and for the library-backed backends (whose
cells pass through `make_consistent`); for the precomputed-grid loader it
holds only when the per-cell invalidity (own mask or stored NaN) of the
latitude and longitude inputs already coincides, because `from_file` masks
each variable with its own mask and applies no cross-variable masking. -/
theorem pairwise_validity_of_backends :
    (∀ r_orb r_eq r_pol sx cx sy cy : ℝ,
      ((computeLatLonCell r_orb r_eq r_pol sx cx sy cy).1 = none ↔
       (computeLatLonCell r_orb r_eq r_pol sx cx sy cy).2 = none)) ∧
    (∀ (r_orb r_eq r_pol lambda0 : ℝ) (xs : List ℝ) (i j : ℕ),
      (latGridFast r_orb r_eq r_pol xs i j = none ↔
       lonGridFast r_orb r_eq r_pol lambda0 xs i j = none)) ∧
    (∀ (geosInv : ℝ → ℝ → ℝ × ℝ) (ppH : ℝ) (xs ys : List ℝ) (i j : ℕ),
      ((libraryGrid geosInv ppH xs ys).1 i j = none ↔
       (libraryGrid geosInv ppH xs ys).2 i j = none)) ∧
    (∀ latIn lonIn : LatLonInput,
      (∀ i j, (latIn.mask i j = true ∨ latIn.data i j = none) ↔
              (lonIn.mask i j = true ∨ lonIn.data i j = none)) →
      ∀ i j, ((fromFile latIn lonIn).1 i j = none ↔
              (fromFile latIn lonIn).2 i j = none)) := by
  refine ⟨computeCell_none_iff, ?_, ?_, ?_⟩
  · intro r_orb r_eq r_pol lambda0 xs i j
    unfold latGridFast lonGridFast
    rw [reconstructLatGrid_cell, reconstructLonGrid_cell]
    by_cases him : i < xs.length - xs.length / 2 <;>
      by_cases hjw : j < (if (xs.length % 2 == 1) then xs.length - xs.length / 2 - 1
        else xs.length - xs.length / 2) <;>
      simp only [him, hjw, if_pos, if_neg, if_true, if_false, Option.map_eq_none'] <;>
      exact neQuadrant_none_iff _ _ _ _ _ _
  · intro geosInv ppH xs ys i j
    unfold libraryGrid
    exact (makeConsistentCell_none_iff _ _).symm
  · intro latIn lonIn hmask i j
    have h := hmask i j
    unfold fromFile maskFill
    by_cases h1 : latIn.mask i j <;> by_cases h2 : lonIn.mask i j <;>
      simp [h1, h2] at h ⊢ <;> tauto

/-- Witness for the amended theorem of C2: a concrete core-transform cell and a
precomputed pair with agreeing (empty) masks. -/
theorem pairwise_validity_witness :
    ((computeLatLonCell 2 1 1 0 1 0 1).1 = none ↔
     (computeLatLonCell 2 1 1 0 1 0 1).2 = none) ∧
    ((fromFile ⟨fun _ _ => some 1, fun _ _ => false⟩
        ⟨fun _ _ => some 2, fun _ _ => false⟩).1 0 0 = none ↔
     (fromFile ⟨fun _ _ => some 1, fun _ _ => false⟩
        ⟨fun _ _ => some 2, fun _ _ => false⟩).2 0 0 = none) :=
  ⟨pairwise_validity_of_backends.1 2 1 1 0 1 0 1,
   pairwise_validity_of_backends.2.2.2 _ _ (fun i j => by simp) 0 0⟩

/-- C2 counterexample: the precomputed-grid loader violates pairwise
validity when the stored masks differ — here the latitude cell is masked
(NaN) while the longitude cell stays valid. -/
theorem from_file_breaks_pairwise_validity :
    ¬ ∀ i j, ((fromFile ⟨fun _ _ => some 1, fun _ _ => true⟩
        ⟨fun _ _ => some 2, fun _ _ => false⟩).1 i j = none ↔
      (fromFile ⟨fun _ _ => some 1, fun _ _ => true⟩
        ⟨fun _ _ => some 2, fun _ _ => false⟩).2 i j = none) := by
  intro h
  have := (h 0 0).mp (by simp [fromFile, maskFill])
  simp [fromFile, maskFill] at this

/-! ## Step subsampling (`GOESGeodeticGrid._initialize_calculated`) -/

/-- numpy basic slicing `v[::k]` for `k ≥ 1`: every `k`-th element starting
at index 0. -/
def everyNth (k : ℕ) : List ℝ → List ℝ
  | [] => []
  | a :: rest => a :: everyNth k (rest.drop (k - 1))
termination_by v => v.length
decreasing_by simp [List.length_drop]; omega

lemma everyNth_length (k : ℕ) (hk : 1 ≤ k) (v : List ℝ) :
    (everyNth k v).length = (v.length + (k - 1)) / k := by
  induction v using everyNth.induct k with
  | case1 =>
    simp only [everyNth, List.length_nil, Nat.zero_add]
    exact (Nat.div_eq_of_lt (by omega)).symm
  | case2 a rest ih =>
    simp only [everyNth, List.length_cons, ih, List.length_drop]
    rcases le_or_lt (k - 1) rest.length with h | h
    · rw [show rest.length - (k - 1) + (k - 1) = rest.length from by omega,
        show rest.length + 1 + (k - 1) = rest.length + k from by omega,
        Nat.add_div_right _ (by omega)]
    · rw [show rest.length - (k - 1) = 0 from by omega, Nat.zero_add,
        Nat.div_eq_of_lt (by omega),
        show rest.length + 1 + (k - 1) = rest.length + k from by omega,
        Nat.add_div_right _ (by omega),
        Nat.div_eq_of_lt (by omega)]

lemma everyNth_gD (k : ℕ) (hk : 1 ≤ k) (v : List ℝ) (i : ℕ) :
    gD (everyNth k v) i = gD v (k * i) := by
  induction v using everyNth.induct k generalizing i with
  | case1 => simp [everyNth, gD]
  | case2 a rest ih =>
    cases i with
    | zero => simp [everyNth, gD]
    | succ n =>
      simp only [everyNth]
      rw [gD_cons_succ, ih, gD_drop, Nat.mul_succ,
        show k * n + k = (k - 1 + k * n) + 1 from by omega, gD_cons_succ]

/-- The step subsampling of `_initialize_calculated`: `v[::s]` is applied
only when the component exceeds 1. -/
def stepSlice (s : ℕ) (v : List ℝ) : List ℝ := if 1 < s then everyNth s v else v

/-- `_initialize_calculated` restricted to the goesdr backend: optional
edge coordinates (`corners`), step subsampling of the 1-D vectors before
any 2-D expansion, then the pointwise transform grid of
`calculate_latlon_grid_goesdr`; `none` models the `IndexError` the edge
interpolator raises on degenerate inputs. -/
def initCalculatedGoesdr (r_orb r_eq r_pol lambda0 : ℝ) (xs ys : List ℝ)
    (corners : Bool) (s1 s2 : ℕ) : Option (Grid × Grid) :=
  match (if corners then calculate_pixel_edges xs else some xs),
        (if corners then calculate_pixel_edges ys else some ys) with
  | some xr, some yr =>
    some (latGridOpti r_orb r_eq r_pol (stepSlice s2 xr) (stepSlice s1 yr),
          lonGridOpti r_orb r_eq r_pol lambda0 (stepSlice s2 xr) (stepSlice s1 yr))
  | _, _ => none

/-- C7: a `step = (2, 2)` request on a 10×10 angle grid yields a 5×5 grid
(the sliced vectors have 5 entries each) in which every cell equals the
stride-2 element of the unstepped output: the step is applied by slicing
the 1-D vectors before 2-D expansion, and the per-pixel transform depends
only on the angles of that pixel. -/
theorem step_commutes_with_grid (r_orb r_eq r_pol lambda0 : ℝ) (xs ys : List ℝ)
    (hx : xs.length = 10) (hy : ys.length = 10) :
    (stepSlice 2 xs).length = 5 ∧ (stepSlice 2 ys).length = 5 ∧
    ∃ gStep gFull,
      initCalculatedGoesdr r_orb r_eq r_pol lambda0 xs ys false 2 2 = some gStep ∧
      initCalculatedGoesdr r_orb r_eq r_pol lambda0 xs ys false 1 1 = some gFull ∧
      ∀ i j, gStep.1 i j = gFull.1 (2 * i) (2 * j) ∧
        gStep.2 i j = gFull.2 (2 * i) (2 * j) := by
  have hslice : ∀ (v : List ℝ) (t : ℕ), gD (stepSlice 2 v) t = gD v (2 * t) := by
    intro v t
    rw [stepSlice, if_pos (by norm_num), everyNth_gD 2 (by norm_num)]
  have hone : ∀ v : List ℝ, stepSlice 1 v = v := by
    intro v
    rw [stepSlice, if_neg (by norm_num)]
  have hlen : ∀ v : List ℝ, v.length = 10 → (stepSlice 2 v).length = 5 := by
    intro v hv
    rw [stepSlice, if_pos (by norm_num), everyNth_length 2 (by norm_num), hv]
  refine ⟨hlen xs hx, hlen ys hy, _, _, rfl, rfl, ?_⟩
  intro i j
  constructor
  · show latGridOpti r_orb r_eq r_pol (stepSlice 2 xs) (stepSlice 2 ys) i j =
      latGridOpti r_orb r_eq r_pol (stepSlice 1 xs) (stepSlice 1 ys) (2 * i) (2 * j)
    unfold latGridOpti
    rw [hslice, hslice, hone, hone]
  · show lonGridOpti r_orb r_eq r_pol lambda0 (stepSlice 2 xs) (stepSlice 2 ys) i j =
      lonGridOpti r_orb r_eq r_pol lambda0 (stepSlice 1 xs) (stepSlice 1 ys) (2 * i) (2 * j)
    unfold lonGridOpti
    rw [hslice, hslice, hone, hone]

/-- Witness for C7 at the 10-element vectors `x = y = [0, 1, …, 9]`. -/
theorem step_commutes_with_grid_witness :
    ([(0 : ℝ), 1, 2, 3, 4, 5, 6, 7, 8, 9] : List ℝ).length = 10 ∧
    (stepSlice 2 [(0 : ℝ), 1, 2, 3, 4, 5, 6, 7, 8, 9]).length = 5 ∧
    (stepSlice 2 [(0 : ℝ), 1, 2, 3, 4, 5, 6, 7, 8, 9]).length = 5 ∧
    ∃ gStep gFull,
      initCalculatedGoesdr 2 1 1 0 [(0 : ℝ), 1, 2, 3, 4, 5, 6, 7, 8, 9]
        [(0 : ℝ), 1, 2, 3, 4, 5, 6, 7, 8, 9] false 2 2 = some gStep ∧
      initCalculatedGoesdr 2 1 1 0 [(0 : ℝ), 1, 2, 3, 4, 5, 6, 7, 8, 9]
        [(0 : ℝ), 1, 2, 3, 4, 5, 6, 7, 8, 9] false 1 1 = some gFull ∧
      ∀ i j, gStep.1 i j = gFull.1 (2 * i) (2 * j) ∧
        gStep.2 i j = gFull.2 (2 * i) (2 * j) :=
  ⟨rfl, step_commutes_with_grid 2 1 1 0 _ _ rfl rfl⟩

end

/-! ## Configuration-error theorems (C6) -/

/-- C6: an algorithm string whose name token is not in the accepted set
(in particular `"bogus[option]"`, whose name token is `"bogus"`) is
rejected by `_parse_algorithm` with the error naming that token and the
accepted set; an accepted name with an unknown option token is rejected
naming the option token and its accepted set; a step with any component
`≤ 0` is rejected by `_parse_step` naming the bad value; and in
`GOESGeodeticGrid.calculate` either error is raised before the grid
computation runs, so no grid is produced. -/
theorem config_errors_at_selection_time :
    parse_algorithm "bogus[option]" =
      .error (.badAlgorithmName "bogus" acceptedAlgorithms) ∧
    (∀ (s : String) (name : String) (opt : Option String),
      matchAlgoSpec s.toList = some (name, opt) → name ∉ acceptedAlgorithms →
      parse_algorithm s = .error (.badAlgorithmName name acceptedAlgorithms)) ∧
    (∀ (s : String) (name o : String),
      matchAlgoSpec s.toList = some (name, some o) → name ∈ acceptedAlgorithms →
      o ∉ acceptedOptions →
      parse_algorithm s = .error (.badOption o acceptedOptions)) ∧
    (∀ a b : Int, a ≤ 0 ∨ b ≤ 0 →
      parse_step (.inr (a, b)) = .error (.badStep (a, b))) ∧
    (∀ (G : Type) (alg : String) (st : Int ⊕ Int × Int)
      (g : String → Bool → Int × Int → G) (e : ConfigError),
      parse_algorithm alg = .error e ∨
        (parse_step st = .error e ∧ ∃ nc, parse_algorithm alg = .ok nc) →
      calculateEntry alg st g = .error e) := by
  refine ⟨rfl, ?_, ?_, ?_, ?_⟩
  · intro s name opt h hname
    simp only [parse_algorithm, h]
    rw [if_neg hname]
  · intro s name o h hname ho
    simp only [parse_algorithm, h]
    rw [if_pos hname, if_neg ho]
  · intro a b h
    have h' : ((a, b) : Int × Int).1 ≤ 0 ∨ ((a, b) : Int × Int).2 ≤ 0 := h
    simp only [parse_step]
    rw [if_pos h']
  · intro G alg st g e h
    rcases h with h | ⟨hstep, nc, hok⟩
    · unfold calculateEntry
      rw [h]
      rfl
    · unfold calculateEntry
      rw [hok, hstep]
      rfl

/-- Witness for C6: the scenario token `"bogus[option]"`, a bad option, a
non-positive step, and the entry point short-circuiting to the error. -/
theorem config_errors_witness :
    parse_algorithm "goesdr[edge]" = .error (.badOption "edge" acceptedOptions) ∧
    parse_step (.inr (0, 2)) = .error (.badStep (0, 2)) ∧
    calculateEntry "bogus[option]" (.inr (1, 1)) (fun _ _ _ => (0 : ℕ)) =
      .error (.badAlgorithmName "bogus" acceptedAlgorithms) :=
  ⟨config_errors_at_selection_time.2.2.1 "goesdr[edge]" "goesdr" "edge"
      (by decide) (by decide) (by decide),
   config_errors_at_selection_time.2.2.2.1 0 2 (by norm_num),
   config_errors_at_selection_time.2.2.2.2 ℕ "bogus[option]" (.inr (1, 1))
      (fun _ _ _ => (0 : ℕ)) (.badAlgorithmName "bogus" acceptedAlgorithms)
      (Or.inl rfl)⟩

end GoesDR
